import Mathlib

set_option maxRecDepth 100000

/-!
Shallow embedding of the kafka-order-service order lifecycle core.

Conventions of the embedding:
* UUIDs are modelled as natural numbers; `0` plays the role of `uuid.Nil`.
  Fresh identifiers are drawn from a counter `g`, each fresh id being `g+1`
  (hence never nil).
* Timestamps (`time.Now()`) are modelled as explicit `Nat` parameters.
* Monetary amounts (`float64` in Go, `DECIMAL(10,2)` in the schema) are
  modelled as exact rationals, matching the fixed-point decimal reading of
  the specification.
* `map[string]interface{}` values are modelled as association lists over a
  small value type (`MVal`) covering the kinds actually stored (strings and
  integers); Go map assignment is `assocSet` (replace-or-append).
* Methods mutating a receiver become functions returning the updated value;
  fallible operations also return an `Option DomainErr`.
-/

namespace KOS

/-- The seven order statuses of the Go `OrderStatus` string enum. -/
inductive OrderStatus
  | pending
  | confirmed
  | processing
  | shipped
  | delivered
  | cancelled
  | refunded
deriving DecidableEq, Repr

/-- The Go string value of a status (used when a status is stored in a
string-valued data mapping, e.g. `old_status`). -/
def statusString : OrderStatus → String
  | .pending => "pending"
  | .confirmed => "confirmed"
  | .processing => "processing"
  | .shipped => "shipped"
  | .delivered => "delivered"
  | .cancelled => "cancelled"
  | .refunded => "refunded"

/-- Value kinds stored in `map[string]interface{}` bags (metadata, event
data): strings and integers are the kinds the core actually stores. -/
inductive MVal
  | s (v : String)
  | i (v : Int)
deriving DecidableEq, Repr

/-- Go map assignment `m[k] = v` on an association-list model: replace the
existing binding or append a new one. -/
def assocSet (m : List (String × MVal)) (k : String) (v : MVal) : List (String × MVal) :=
  match m with
  | [] => [(k, v)]
  | (k', v') :: rest => if k' = k then (k, v) :: rest else (k', v') :: assocSet rest k v

/-- Go map lookup `m[k]`. -/
def assocGet (m : List (String × MVal)) (k : String) : Option MVal :=
  match m with
  | [] => none
  | (k', v') :: rest => if k' = k then some v' else assocGet rest k

/-- `OrderItem` (order-entity.go). -/
structure OrderItem where
  id : Nat
  orderId : Nat
  productId : Nat
  name : String
  price : ℚ
  quantity : Int
  total : ℚ
deriving DecidableEq, Repr

/-- `Address` (order-entity.go); `type` is the "shipping"/"billing" tag. -/
structure Address where
  id : Nat
  orderId : Nat
  addrType : String
  street : String
  city : String
  state : String
  country : String
  zipCode : String
deriving DecidableEq, Repr

/-- `Order` (order-entity.go). -/
structure Order where
  id : Nat
  customerId : Nat
  email : String
  status : OrderStatus
  totalAmount : ℚ
  currency : String
  items : List OrderItem
  createdAt : Nat
  updatedAt : Nat
  shippingAddress : Option Address
  billingAddress : Option Address
  metadata : List (String × MVal)
deriving DecidableEq, Repr

/-- Domain error taxonomy (errors file in the entities package). -/
inductive DomainErr
  | validation (msg : String)
  | invalidStatusTransition (fromStatus toStatus : OrderStatus)
  | orderNotFound (orderId : Nat)
  | persistence (msg : String)
deriving DecidableEq, Repr

/-- The `validTransitions` table of `Order.canTransitionTo`. -/
def validTransitions : OrderStatus → List OrderStatus
  | .pending => [.confirmed, .cancelled]
  | .confirmed => [.processing, .cancelled]
  | .processing => [.shipped, .cancelled]
  | .shipped => [.delivered]
  | .delivered => [.refunded]
  | .cancelled => []
  | .refunded => []

/-- `Order.canTransitionTo`: membership of the target in the allowed set for
the current status. -/
def Order.canTransitionTo (o : Order) (newStatus : OrderStatus) : Bool :=
  (validTransitions o.status).contains newStatus

/-- `NewOrder`: fresh id `g+1`, pending status, USD currency, empty items and
metadata, both timestamps set to now.  Returns the order and the advanced
id counter. -/
def newOrder (g : Nat) (customerId : Nat) (email : String) (now : Nat) : Order × Nat :=
  ({ id := g + 1
     customerId := customerId
     email := email
     status := .pending
     totalAmount := 0
     currency := "USD"
     items := []
     createdAt := now
     updatedAt := now
     shippingAddress := none
     billingAddress := none
     metadata := [] }, g + 1)

/-- `Order.calculateTotal`: recompute `TotalAmount` as the running sum of the
items' `Total` fields (Go accumulates with `total += item.Total` from 0.0). -/
def Order.calculateTotal (o : Order) : Order :=
  { o with totalAmount := o.items.foldl (fun acc it => acc + it.total) 0 }

/-- `Order.AddItem`: append an item with `Total = Price * Quantity`, then
recompute the order total and refresh the update timestamp.  The fresh item
id is an explicit parameter (`uuid.New()` at the call site). -/
def Order.addItem (o : Order) (itemId productId : Nat) (name : String)
    (price : ℚ) (quantity : Int) (now : Nat) : Order :=
  let item : OrderItem :=
    { id := itemId
      orderId := o.id
      productId := productId
      name := name
      price := price
      quantity := quantity
      total := price * (quantity : ℚ) }
  let o1 := { o with items := o.items ++ [item] }
  { o1.calculateTotal with updatedAt := now }

/-- Remove the first item whose id matches; `none` when no item matches. -/
def removeFirstItem (l : List OrderItem) (itemId : Nat) : Option (List OrderItem) :=
  match l with
  | [] => none
  | x :: xs =>
    if x.id = itemId then some xs
    else (removeFirstItem xs itemId).map (fun ys => x :: ys)

/-- `Order.RemoveItem`: delete the first matching item, recompute the total,
refresh the timestamp, report whether a removal happened. -/
def Order.removeItem (o : Order) (itemId : Nat) (now : Nat) : Order × Bool :=
  match removeFirstItem o.items itemId with
  | none => (o, false)
  | some items1 => ({ ({ o with items := items1 }).calculateTotal with updatedAt := now }, true)

/-- `Order.UpdateStatus`: refuse a transition outside the table, returning the
`InvalidStatusTransition` error and the unchanged order; otherwise set the
status and refresh the update timestamp. -/
def Order.updateStatus (o : Order) (newStatus : OrderStatus) (now : Nat) :
    Order × Option DomainErr :=
  if ¬ o.canTransitionTo newStatus then
    (o, some (.invalidStatusTransition o.status newStatus))
  else
    ({ o with status := newStatus, updatedAt := now }, none)

/-- `Order.IsActive`. -/
def Order.isActive (o : Order) : Bool :=
  o.status ≠ .cancelled && o.status ≠ .refunded && o.status ≠ .delivered

/-- `Order.IsFinal`. -/
def Order.isFinal (o : Order) : Bool :=
  o.status = .cancelled || o.status = .refunded || o.status = .delivered

/-- `Order.GetItemCount`: sum of the item quantities. -/
def Order.getItemCount (o : Order) : Int :=
  o.items.foldl (fun acc it => acc + it.quantity) 0

/-- `Order.SetShippingAddress`: stamp the address with a fresh id, the order
id and the "shipping" tag, attach it and refresh the timestamp. -/
def Order.setShippingAddress (o : Order) (addr : Address) (addrId : Nat) (now : Nat) : Order :=
  { o with
    shippingAddress := some { addr with id := addrId, orderId := o.id, addrType := "shipping" }
    updatedAt := now }

/-- `Order.SetBillingAddress`: same with the "billing" tag. -/
def Order.setBillingAddress (o : Order) (addr : Address) (addrId : Nat) (now : Nat) : Order :=
  { o with
    billingAddress := some { addr with id := addrId, orderId := o.id, addrType := "billing" }
    updatedAt := now }

/-- `OrderEvent` (order-entity.go). -/
structure OrderEvent where
  eventType : String
  eventId : Nat
  orderId : Nat
  customerId : Nat
  status : OrderStatus
  totalAmount : ℚ
  currency : String
  timestamp : Nat
  data : List (String × MVal)
deriving DecidableEq, Repr

/-- `Order.ToEvent`: point-in-time snapshot of the order plus a data mapping
holding the email and the item count. -/
def Order.toEvent (o : Order) (eventType : String) (eventId : Nat) (now : Nat) : OrderEvent :=
  { eventType := eventType
    eventId := eventId
    orderId := o.id
    customerId := o.customerId
    status := o.status
    totalAmount := o.totalAmount
    currency := o.currency
    timestamp := now
    data := [("email", .s o.email), ("item_count", .i o.getItemCount)] }

/-- `OrderItem.Validate`: first violation among id, product id, name, price,
quantity and the exact `total = price * quantity` check. -/
def OrderItem.validate (it : OrderItem) : Option DomainErr :=
  if it.id = 0 then some (.validation "item ID cannot be empty")
  else if it.productId = 0 then some (.validation "product ID cannot be empty")
  else if it.name = "" then some (.validation "item name cannot be empty")
  else if it.price ≤ 0 then some (.validation "item price must be greater than zero")
  else if it.quantity ≤ 0 then some (.validation "item quantity must be greater than zero")
  else if it.total ≠ it.price * (it.quantity : ℚ) then
    some (.validation "item total doesn't match price * quantity")
  else none

/-- `DomainError.Error()`: "TYPE: message" rendering used when one error is
embedded in another one's message. -/
def DomainErr.errString : DomainErr → String
  | .validation m => "VALIDATION_ERROR: " ++ m
  | .invalidStatusTransition f t =>
      "INVALID_STATUS_TRANSITION: cannot transition from " ++ statusString f
        ++ " to " ++ statusString t
  | .orderNotFound oid => "ORDER_NOT_FOUND: order with ID " ++ toString oid ++ " not found"
  | .persistence m => m

/-- The per-item loop of `Order.Validate`. -/
def validateItemsLoop : List OrderItem → Nat → Option DomainErr
  | [], _ => none
  | it :: rest, i =>
    match it.validate with
    | some e => some (.validation ("item " ++ toString i ++ ": " ++ e.errString))
    | none => validateItemsLoop rest (i + 1)

/-- `Order.Validate`: non-empty ids, email, at least one item, positive total,
then per-item validation, returning the first violation found. -/
def Order.validate (o : Order) : Option DomainErr :=
  if o.id = 0 then some (.validation "order ID cannot be empty")
  else if o.customerId = 0 then some (.validation "customer ID cannot be empty")
  else if o.email = "" then some (.validation "email cannot be empty")
  else if o.items.length = 0 then some (.validation "order must have at least one item")
  else if o.totalAmount ≤ 0 then some (.validation "total amount must be greater than zero")
  else validateItemsLoop o.items 0

/-! ## CreateOrder use case (create-order-usecase source) -/

/-- `strings.Split` on a single separator character, over `List Char`. -/
def goSplit : List Char → Char → List (List Char)
  | [], _ => [[]]
  | x :: xs, c =>
    if x = c then [] :: goSplit xs c
    else
      match goSplit xs c with
      | [] => [[x]]
      | h :: t => (x :: h) :: t

/-- `validateEmail`: length at least 5, contains "@", splitting on "@" yields
exactly two parts, and the part after the "@" has at least 3 characters and
contains ".". -/
def validateEmail (email : String) : Bool :=
  if email.length < 5 then false
  else if ¬ email.data.contains '@' then false
  else
    let parts := goSplit email.data '@'
    parts.length == 2 && decide (3 ≤ (parts.getD 1 []).length)
      && (parts.getD 1 []).contains '.'

/-- `CreateOrderItemRequest`. -/
structure CreateOrderItemRequest where
  productId : Nat
  name : String
  price : ℚ
  quantity : Int
deriving DecidableEq, Repr

/-- `CreateAddressRequest`. -/
structure CreateAddressRequest where
  street : String
  city : String
  state : String
  country : String
  zipCode : String
deriving DecidableEq, Repr

/-- `CreateOrderRequest`; an empty `currency` string means "unset". -/
structure CreateOrderRequest where
  customerId : Nat
  email : String
  items : List CreateOrderItemRequest
  currency : String
  metadata : List (String × MVal)
  shippingAddress : Option CreateAddressRequest
  billingAddress : Option CreateAddressRequest
deriving DecidableEq, Repr

/-- The per-item loop of `CreateOrderUseCase.validateRequest`. -/
def validateReqItemsLoop : List CreateOrderItemRequest → Nat → Option DomainErr
  | [], _ => none
  | it :: rest, i =>
    if it.productId = 0 then
      some (.validation ("item " ++ toString i ++ ": product_id is required"))
    else if it.name = "" then
      some (.validation ("item " ++ toString i ++ ": name is required"))
    else if it.price ≤ 0 then
      some (.validation ("item " ++ toString i ++ ": price must be greater than 0"))
    else if it.quantity ≤ 0 then
      some (.validation ("item " ++ toString i ++ ": quantity must be greater than 0"))
    else validateReqItemsLoop rest (i + 1)

/-- `CreateOrderUseCase.validateRequest`: customer id present, email
non-empty and well-formed, at least one item, per-item checks. -/
def validateRequest (req : CreateOrderRequest) : Option DomainErr :=
  if req.customerId = 0 then some (.validation "customer_id is required")
  else if req.email = "" then some (.validation "email is required")
  else if ¬ validateEmail req.email then some (.validation "invalid email format")
  else if req.items.length = 0 then some (.validation "at least one item is required")
  else validateReqItemsLoop req.items 0

/-- The item-adding loop of `CreateOrderUseCase.Execute`: each iteration calls
`Order.AddItem` with a fresh item id drawn from the counter. -/
def addItemsFromReq (o : Order) (l : List CreateOrderItemRequest) (g now : Nat) : Order × Nat :=
  match l with
  | [] => (o, g)
  | r :: rs =>
    addItemsFromReq (o.addItem (g + 1) r.productId r.name r.price r.quantity now) rs (g + 1) now

/-- The metadata-merging loop of `CreateOrderUseCase.Execute`. -/
def applyMetadata (o : Order) : List (String × MVal) → Order
  | [] => o
  | (k, v) :: rest => applyMetadata { o with metadata := assocSet o.metadata k v } rest

/-- The `&entities.Address` literal built from an address request before the
setter stamps id, order id and type. -/
def reqToAddress (a : CreateAddressRequest) : Address :=
  { id := 0, orderId := 0, addrType := ""
    street := a.street, city := a.city, state := a.state
    country := a.country, zipCode := a.zipCode }

/-- The optional-address phase of `CreateOrderUseCase.Execute`: attach the
shipping address when requested, then the billing address, each drawing a
fresh id. -/
def attachAddresses (o : Order) (sa ba : Option CreateAddressRequest) (g now : Nat) :
    Order × Nat :=
  let (o4, g4) :=
    match sa with
    | none => (o, g)
    | some a => (o.setShippingAddress (reqToAddress a) (g + 1) now, g + 1)
  match ba with
  | none => (o4, g4)
  | some a => (o4.setBillingAddress (reqToAddress a) (g4 + 1) now, g4 + 1)

/-- The aggregate-construction phase of `CreateOrderUseCase.Execute`:
`NewOrder`, optional currency override, metadata merge, item additions,
optional address attachments.  Returns the order and the advanced counter. -/
def buildOrderFromReq (req : CreateOrderRequest) (g now : Nat) : Order × Nat :=
  let (o0, g0) := newOrder g req.customerId req.email now
  let o1 := if req.currency ≠ "" then { o0 with currency := req.currency } else o0
  let o2 := applyMetadata o1 req.metadata
  let (o3, g3) := addItemsFromReq o2 req.items g0 now
  attachAddresses o3 req.shippingAddress req.billingAddress g3 now

/-- The order as it stands after `NewOrder` and the currency override. -/
def currencyPhaseOf (req : CreateOrderRequest) (g now : Nat) : Order :=
  let o0 := (newOrder g req.customerId req.email now).1
  if req.currency ≠ "" then { o0 with currency := req.currency } else o0

/-- The order as it stands after the metadata merge. -/
def metaPhaseOf (req : CreateOrderRequest) (g now : Nat) : Order :=
  applyMetadata (currencyPhaseOf req g now) req.metadata

/-- The order and counter as they stand after the item additions. -/
def addItemsPhaseOf (req : CreateOrderRequest) (g now : Nat) : Order × Nat :=
  addItemsFromReq (metaPhaseOf req g now) req.items (g + 1) now

/-- Observable outcome of one `CreateOrderUseCase.Execute` run: the returned
value, whether the repository `Create` was invoked, and the events handed to
the publisher (publish failures are logged only, so the attempt list does not
depend on the publish outcome). -/
structure CreateExecResult where
  outcome : Except DomainErr Order
  createAttempted : Bool
  publishAttempts : List OrderEvent
deriving Repr

/-- `CreateOrderUseCase.Execute`: validate the request, build the aggregate,
run `Order.Validate`, persist (outcome supplied by `createOk`), then build the
`order.created` event and publish it best-effort (`publishOk` does not affect
the returned outcome). -/
def createOrderExecute (req : CreateOrderRequest) (g now : Nat)
    (createOk publishOk : Bool) : CreateExecResult :=
  match validateRequest req with
  | some e => { outcome := .error e, createAttempted := false, publishAttempts := [] }
  | none =>
    let (order, g1) := buildOrderFromReq req g now
    match order.validate with
    | some e => { outcome := .error e, createAttempted := false, publishAttempts := [] }
    | none =>
      if ¬ createOk then
        { outcome := .error (.persistence "failed to save order")
          createAttempted := true
          publishAttempts := [] }
      else
        let event := order.toEvent "order.created" (g1 + 1) now
        { outcome := .ok order
          createAttempted := true
          publishAttempts := [event] }

/-! ## UpdateOrderStatus use case (update-status-usecase.go) -/

/-- `UpdateOrderStatusRequest`; the target status is one of the seven values
(the Go use case rejects any other string before the steps modelled here). -/
structure UpdateOrderStatusRequest where
  orderId : Nat
  newStatus : OrderStatus
  reason : String
deriving DecidableEq, Repr

/-- `UpdateOrderStatusResponse`. -/
structure UpdateOrderStatusResponse where
  order : Order
  message : String
  oldStatus : OrderStatus
  newStatus : OrderStatus
deriving DecidableEq, Repr

/-- Observable outcome of one `UpdateOrderStatusUseCase.Execute` run. -/
structure UpdateExecResult where
  outcome : Except DomainErr UpdateOrderStatusResponse
  updateAttempted : Bool
  publishAttempts : List OrderEvent
deriving Repr

/-- The event-type switch of `UpdateOrderStatusUseCase.Execute`, keyed by the
target status alone. -/
def eventTypeFor : OrderStatus → String
  | .confirmed => "order.confirmed"
  | .cancelled => "order.cancelled"
  | .shipped => "order.shipped"
  | .delivered => "order.delivered"
  | .refunded => "order.refunded"
  | _ => "order.status_changed"

/-- `UpdateOrderStatusUseCase.Execute`: validate, load the order (`fetched` is
the repository `GetByID` outcome), record the old status, transition, attach
the reason to the metadata when non-empty, persist (`updateOk`), then build
the event from the updated order, inject `old_status` and `change_reason`
into its data and publish best-effort. -/
def updateStatusExecute (req : UpdateOrderStatusRequest)
    (fetched : Except DomainErr Order) (updateOk : Bool) (g now : Nat)
    (publishOk : Bool) : UpdateExecResult :=
  if req.orderId = 0 then
    { outcome := .error (.validation "order_id is required")
      updateAttempted := false, publishAttempts := [] }
  else
    match fetched with
    | .error e => { outcome := .error e, updateAttempted := false, publishAttempts := [] }
    | .ok order =>
      let oldStatus := order.status
      match order.updateStatus req.newStatus now with
      | (_, some e) => { outcome := .error e, updateAttempted := false, publishAttempts := [] }
      | (order1, none) =>
        let order2 :=
          if req.reason ≠ "" then
            { order1 with metadata := assocSet order1.metadata "status_change_reason" (.s req.reason) }
          else order1
        if ¬ updateOk then
          { outcome := .error (.persistence "failed to save order")
            updateAttempted := true, publishAttempts := [] }
        else
          let ev0 := order2.toEvent (eventTypeFor req.newStatus) (g + 1) now
          let ev := { ev0 with
            data := assocSet (assocSet ev0.data "old_status" (.s (statusString oldStatus)))
              "change_reason" (.s req.reason) }
          { outcome := .ok
              { order := order2
                message := "Order status updated from " ++ statusString oldStatus
                  ++ " to " ++ statusString req.newStatus
                oldStatus := oldStatus
                newStatus := req.newStatus }
            updateAttempted := true
            publishAttempts := [ev] }

/-! ## ListOrders use case (list part of update-status-usecase.go) -/

/-- `ListOrdersRequest`; optional filters are `Option`s, pagination and sort
fields carry their raw incoming values. -/
structure ListOrdersRequest where
  customerId : Option Nat
  status : Option OrderStatus
  email : Option String
  minAmount : Option ℚ
  maxAmount : Option ℚ
  currency : Option String
  limit : Int
  offset : Int
  sortBy : String
  sortOrder : String
deriving DecidableEq, Repr

/-- The default-setting prefix of `ListOrdersUseCase.validateAndSetDefaults`:
limit defaults to 20 when non-positive and is capped at 100, offset is floored
at 0, sort field defaults to created_at, sort order to desc. -/
def normalizeListReq (req : ListOrdersRequest) : ListOrdersRequest :=
  { req with
    limit := if req.limit ≤ 0 then 20 else if req.limit > 100 then 100 else req.limit
    offset := if req.offset < 0 then 0 else req.offset
    sortBy := if req.sortBy = "" then "created_at" else req.sortBy
    sortOrder := if req.sortOrder = "" then "desc" else req.sortOrder }

/-- Whether a present amount bound is negative (vacuously false when the
bound is absent, matching the Go nil-pointer guard). -/
def negAmount : Option ℚ → Bool
  | some a => decide (a < 0)
  | none => false

/-- Whether both amount bounds are present with min above max. -/
def minGtMax : Option ℚ → Option ℚ → Bool
  | some mn, some mx => decide (mn > mx)
  | _, _ => false

/-- `ListOrdersUseCase.validateAndSetDefaults`: set the defaults, then
validate the sort field against the allow-list, the sort order against
asc/desc, and the amount bounds (non-negative, min at most max, each check
only when the bound is present).  Returns the normalized request or the
first validation error. -/
def validateAndSetDefaults (req : ListOrdersRequest) : Except DomainErr ListOrdersRequest :=
  let r := normalizeListReq req
  if ¬ ["created_at", "updated_at", "total_amount", "status"].contains r.sortBy then
    .error (.validation ("invalid sort_by field: " ++ r.sortBy))
  else if r.sortOrder ≠ "asc" ∧ r.sortOrder ≠ "desc" then
    .error (.validation "sort_order must be 'asc' or 'desc'")
  else if negAmount r.minAmount then
    .error (.validation "min_amount cannot be negative")
  else if negAmount r.maxAmount then
    .error (.validation "max_amount cannot be negative")
  else if minGtMax r.minAmount r.maxAmount then
    .error (.validation "min_amount cannot be greater than max_amount")
  else .ok r

/-- Observable outcome of one `ListOrdersUseCase.Execute` run: the outcome
and whether the repository (`List`/`Count`) was invoked. -/
structure ListExecResult where
  outcome : Except DomainErr (List Order × Int × Int × Int)
  repoCalled : Bool
deriving Repr

/-- `ListOrdersUseCase.Execute`: validate-and-default first; on failure the
repository is never invoked; on success the repository results are returned
together with the echoed (normalized) limit and offset. -/
def listOrdersExecute (req : ListOrdersRequest)
    (repoOrders : List Order) (repoCount : Int) : ListExecResult :=
  match validateAndSetDefaults req with
  | .error e => { outcome := .error e, repoCalled := false }
  | .ok req1 =>
    { outcome := .ok (repoOrders, repoCount, req1.limit, req1.offset)
      repoCalled := true }

/-! ## PostgreSQL repository (postgres order repository source) -/

/-- A row of the `orders` table. -/
structure OrderRow where
  id : Nat
  customerId : Nat
  email : String
  status : OrderStatus
  totalAmount : ℚ
  currency : String
  createdAt : Nat
  updatedAt : Nat
deriving DecidableEq, Repr

/-- A row of the `order_items` table. -/
structure ItemRow where
  id : Nat
  orderId : Nat
  productId : Nat
  name : String
  price : ℚ
  quantity : Int
  total : ℚ
deriving DecidableEq, Repr

/-- A row of the `order_addresses` table. -/
structure AddressRow where
  id : Nat
  orderId : Nat
  addrType : String
  street : String
  city : String
  state : String
  country : String
  zipCode : String
deriving DecidableEq, Repr

/-- The three tables the repository touches. -/
structure DB where
  orders : List OrderRow
  orderItems : List ItemRow
  orderAddresses : List AddressRow
deriving DecidableEq, Repr

/-- The empty database. -/
def emptyDB : DB := { orders := [], orderItems := [], orderAddresses := [] }

/-- Item-to-row projection used by the `Create` insert. -/
def itemToRow (it : OrderItem) : ItemRow :=
  { id := it.id, orderId := it.orderId, productId := it.productId
    name := it.name, price := it.price, quantity := it.quantity, total := it.total }

/-- Address-to-row projection used by the `Create` insert. -/
def addressToRow (a : Address) : AddressRow :=
  { id := a.id, orderId := a.orderId, addrType := a.addrType
    street := a.street, city := a.city, state := a.state
    country := a.country, zipCode := a.zipCode }

/-- `OrderRepository.Create`: insert the header row, the item rows and any
address rows (shipping first, then billing) as one unit. -/
def repoCreate (db : DB) (o : Order) : DB :=
  { orders := db.orders ++
      [{ id := o.id, customerId := o.customerId, email := o.email, status := o.status
         totalAmount := o.totalAmount, currency := o.currency
         createdAt := o.createdAt, updatedAt := o.updatedAt }]
    orderItems := db.orderItems ++ o.items.map itemToRow
    orderAddresses := db.orderAddresses
      ++ (match o.shippingAddress with | none => [] | some a => [addressToRow a])
      ++ (match o.billingAddress with | none => [] | some a => [addressToRow a]) }

/-- Whether one item row's name is at most another's (the `ORDER BY name` of
`getOrderItems`). -/
def nameLe (a b : ItemRow) : Bool := decide (a.name ≤ b.name)

/-- Stable insertion into a name-sorted list. -/
def insertByName (x : ItemRow) : List ItemRow → List ItemRow
  | [] => [x]
  | y :: ys => if nameLe y x then y :: insertByName x ys else x :: y :: ys

/-- Stable sort by name, modelling the `ORDER BY name` of `getOrderItems`. -/
def sortByName : List ItemRow → List ItemRow
  | [] => []
  | x :: xs => insertByName x (sortByName xs)

/-- Row-to-item projection used by the reads. -/
def rowToItem (r : ItemRow) : OrderItem :=
  { id := r.id, orderId := r.orderId, productId := r.productId
    name := r.name, price := r.price, quantity := r.quantity, total := r.total }

/-- Row-to-address projection used by the reads. -/
def rowToAddress (r : AddressRow) : Address :=
  { id := r.id, orderId := r.orderId, addrType := r.addrType
    street := r.street, city := r.city, state := r.state
    country := r.country, zipCode := r.zipCode }

/-- The address-assignment loop of `GetByID`: a "shipping"-tagged row goes to
the shipping slot, a "billing"-tagged one to the billing slot. -/
def assignAddresses (o : Order) : List Address → Order
  | [] => o
  | a :: rest =>
    assignAddresses
      (if a.addrType = "shipping" then { o with shippingAddress := some a }
       else if a.addrType = "billing" then { o with billingAddress := some a }
       else o) rest

/-- `OrderRepository.GetByID`: read the header row (not-found when absent),
the item rows for the order sorted by name, the address rows assigned by
type; the metadata is initialized to an empty map. -/
def repoGetByID (db : DB) (oid : Nat) : Except DomainErr Order :=
  match db.orders.find? (fun r => r.id = oid) with
  | none => .error (.orderNotFound oid)
  | some r =>
    let items := (sortByName (db.orderItems.filter (fun ir => ir.orderId = oid))).map rowToItem
    let addresses := (db.orderAddresses.filter (fun ar => ar.orderId = oid)).map rowToAddress
    let o : Order :=
      { id := r.id, customerId := r.customerId, email := r.email, status := r.status
        totalAmount := r.totalAmount, currency := r.currency
        items := items, createdAt := r.createdAt, updatedAt := r.updatedAt
        shippingAddress := none, billingAddress := none, metadata := [] }
    .ok (assignAddresses o addresses)

/-- The row guard of the `Delete` statement: `status NOT IN ('delivered',
'refunded', 'cancelled')`. -/
def deleteGuard (s : OrderStatus) : Bool :=
  !([OrderStatus.delivered, .refunded, .cancelled].contains s)

/-- `OrderRepository.Delete`: guarded logical delete — set the status of the
matching non-terminal rows to cancelled with a fresh update time; report
`OrderNotFound` when zero rows were affected. -/
def repoDelete (db : DB) (oid : Nat) (now : Nat) : Except DomainErr DB :=
  let affected := db.orders.filter (fun r => r.id = oid ∧ deleteGuard r.status)
  if affected.length = 0 then .error (.orderNotFound oid)
  else
    .ok { db with orders := db.orders.map (fun r =>
      if r.id = oid ∧ deleteGuard r.status then
        { r with status := .cancelled, updatedAt := now }
      else r) }

/-- The order skeleton `GetByID` reconstructs before assigning addresses,
for a store holding exactly one order. -/
def getBaseOrder (o : Order) : Order :=
  { id := o.id, customerId := o.customerId, email := o.email, status := o.status
    totalAmount := o.totalAmount, currency := o.currency
    items := (sortByName ((o.items.map itemToRow).filter
      (fun ir => ir.orderId = o.id))).map rowToItem
    createdAt := o.createdAt, updatedAt := o.updatedAt
    shippingAddress := none, billingAddress := none, metadata := [] }

/-- The address list `GetByID` reads back, for a store holding exactly one
order. -/
def getAddrList (o : Order) : List Address :=
  (((match o.shippingAddress with | none => ([] : List AddressRow) | some a => [addressToRow a])
      ++ (match o.billingAddress with | none => [] | some a => [addressToRow a])).filter
        (fun ar : AddressRow => ar.orderId = o.id)).map rowToAddress

/-- CreateOrder followed by GetOrder on the returned id, on an initially
empty store: the round trip of the spec's testable property. -/
def createThenGet (req : CreateOrderRequest) (g now : Nat) : Except DomainErr Order :=
  match (createOrderExecute req g now true true).outcome with
  | .error e => .error e
  | .ok order => repoGetByID (repoCreate emptyDB order) order.id

/-! ## Derived definitions used by the verification -/

/-- Invariant I1 of the spec: the order total equals the exact sum of the
items' price-times-quantity, and every stored line total equals its own
price times quantity. -/
def totalInvariant (o : Order) : Prop :=
  o.totalAmount = (o.items.map (fun it => it.price * (it.quantity : ℚ))).sum
  ∧ ∀ it ∈ o.items, it.total = it.price * (it.quantity : ℚ)

/-- One item-level mutation of an order: an `AddItem` call (with the fresh
item id it draws) or a `RemoveItem` call. -/
inductive ItemOp
  | add (itemId productId : Nat) (name : String) (price : ℚ) (quantity : Int) (now : Nat)
  | remove (itemId : Nat) (now : Nat)
deriving DecidableEq, Repr

/-- Apply one item-level call. -/
def applyItemOp (o : Order) : ItemOp → Order
  | .add itemId productId name price quantity now =>
      o.addItem itemId productId name price quantity now
  | .remove itemId now => (o.removeItem itemId now).1

/-- Apply a finite sequence of `AddItem`/`RemoveItem` calls. -/
def applyItemOps (o : Order) (ops : List ItemOp) : Order :=
  ops.foldl applyItemOp o

/-- The items produced by the item-adding loop of CreateOrder, with their
generated ids `g+1, g+2, …` and the owning order id. -/
def genItems : List CreateOrderItemRequest → Nat → Nat → List OrderItem
  | [], _, _ => []
  | r :: rs, g, oid =>
    { id := g + 1, orderId := oid, productId := r.productId, name := r.name
      price := r.price, quantity := r.quantity
      total := r.price * (r.quantity : ℚ) } :: genItems rs (g + 1) oid

/-- The input-visible key of a stored line item. -/
def itemKey (it : OrderItem) : Nat × String × ℚ × Int :=
  (it.productId, it.name, it.price, it.quantity)

/-- The input-visible key of a requested line item. -/
def reqItemKey (r : CreateOrderItemRequest) : Nat × String × ℚ × Int :=
  (r.productId, r.name, r.price, r.quantity)

/-- The input-visible fields of an attached address. -/
def addrProj (a : Address) : String × String × String × String × String :=
  (a.street, a.city, a.state, a.country, a.zipCode)

/-- The input-visible fields of a requested address. -/
def reqAddrProj (a : CreateAddressRequest) : String × String × String × String × String :=
  (a.street, a.city, a.state, a.country, a.zipCode)

/-- The transition table of spec section 4.1, written out as the set of
allowed (from, to) pairs. -/
def specAllowedPairs : List (OrderStatus × OrderStatus) :=
  [(.pending, .confirmed), (.pending, .cancelled),
   (.confirmed, .processing), (.confirmed, .cancelled),
   (.processing, .shipped), (.processing, .cancelled),
   (.shipped, .delivered),
   (.delivered, .refunded)]

/-- The spec's email rule as the claim words it: contains "@" and the domain
part (the text after the first "@") has at least 3 characters and contains
".". -/
def emailSpecValid (email : String) : Bool :=
  email.data.contains '@'
    && decide (3 ≤ ((email.data.dropWhile (fun c => c ≠ '@')).tail).length)
    && ((email.data.dropWhile (fun c => c ≠ '@')).tail).contains '.'

/-! ### Concrete fixtures for counterexamples and witnesses -/

/-- A freshly created order used in concrete checks. -/
def sampleOrder : Order := (newOrder 0 7 "test@example.com" 0).1

/-- A stored order row in status shipped. -/
def shippedRow : OrderRow :=
  { id := 1, customerId := 2, email := "a@b.cd", status := .shipped
    totalAmount := 10, currency := "USD", createdAt := 0, updatedAt := 0 }

/-- An order in status shipped. -/
def shippedOrder : Order := { sampleOrder with status := .shipped }

/-- A valid creation request with one item and a metadata entry. -/
def sampleCreateReq : CreateOrderRequest :=
  { customerId := 7
    email := "customer@example.com"
    items := [{ productId := 3, name := "Test Product", price := 4999 / 100, quantity := 3 }]
    currency := ""
    metadata := [("source", .s "web")]
    shippingAddress := some
      { street := "Main St, 1", city := "Minsk", state := "MI", country := "BY", zipCode := "220030" }
    billingAddress := none }

/-- A creation request whose email "@a.b" satisfies the spec's wording of
the email rule but is rejected by the code. -/
def badEmailReq : CreateOrderRequest :=
  { customerId := 7
    email := "@a.b"
    items := [{ productId := 3, name := "X", price := 1, quantity := 1 }]
    currency := ""
    metadata := []
    shippingAddress := none
    billingAddress := none }

/-- A valid status-update request. -/
def sampleUpdateReq : UpdateOrderStatusRequest :=
  { orderId := 1, newStatus := .confirmed, reason := "paid" }

/-- A list request exercising every default and the min/max violation. -/
def sampleListReq : ListOrdersRequest :=
  { customerId := none, status := none, email := none
    minAmount := some 9, maxAmount := some 4, currency := none
    limit := 0, offset := -3, sortBy := "", sortOrder := "" }

/-! ## Helper lemmas: the total invariant -/

theorem foldl_add_total (l : List OrderItem) (a : ℚ) :
    l.foldl (fun acc it => acc + it.total) a = a + (l.map (fun it => it.total)).sum := by
  induction l generalizing a with
  | nil => simp
  | cons x xs ih => simp [ih]; ring

theorem calculateTotal_totalAmount (o : Order) :
    o.calculateTotal.totalAmount = (o.items.map (fun it => it.total)).sum := by
  simp [Order.calculateTotal, foldl_add_total]

theorem calculateTotal_items (o : Order) : o.calculateTotal.items = o.items := rfl

theorem sum_totals_of_inv (l : List OrderItem)
    (h : ∀ it ∈ l, it.total = it.price * (it.quantity : ℚ)) :
    (l.map (fun it => it.total)).sum = (l.map (fun it => it.price * (it.quantity : ℚ))).sum := by
  rw [List.map_congr_left h]

theorem calcTotal_invariant (o : Order)
    (h : ∀ it ∈ o.items, it.total = it.price * (it.quantity : ℚ)) :
    totalInvariant o.calculateTotal := by
  refine ⟨?_, h⟩
  rw [calculateTotal_totalAmount]
  exact sum_totals_of_inv o.items h

theorem newOrder_invariant (g customerId : Nat) (email : String) (now : Nat) :
    totalInvariant (newOrder g customerId email now).1 := by
  constructor <;> simp [newOrder, totalInvariant]

theorem updatedAt_invariant (o : Order) (now : Nat) (h : totalInvariant o) :
    totalInvariant { o with updatedAt := now } := h

theorem addItem_invariant (o : Order) (itemId productId : Nat) (name : String)
    (price : ℚ) (quantity : Int) (now : Nat) (h : totalInvariant o) :
    totalInvariant (o.addItem itemId productId name price quantity now) := by
  obtain ⟨-, h2⟩ := h
  have hall : ∀ it ∈ o.items ++
      [{ id := itemId, orderId := o.id, productId := productId, name := name
         price := price, quantity := quantity
         total := price * (quantity : ℚ) }], it.total = it.price * (it.quantity : ℚ) := by
    intro it hit
    rcases List.mem_append.mp hit with hmem | hmem
    · exact h2 it hmem
    · simp at hmem
      subst hmem
      rfl
  exact updatedAt_invariant _ now
    (calcTotal_invariant ({ o with items := o.items ++ [_] }) hall)

theorem removeFirstItem_subset (l : List OrderItem) (itemId : Nat) (l' : List OrderItem)
    (h : removeFirstItem l itemId = some l') : ∀ it ∈ l', it ∈ l := by
  induction l generalizing l' with
  | nil => simp [removeFirstItem] at h
  | cons x xs ih =>
    by_cases hx : x.id = itemId
    · simp [removeFirstItem, hx] at h
      subst h
      intro it hit
      exact List.mem_cons_of_mem _ hit
    · simp [removeFirstItem, hx] at h
      obtain ⟨ys, hys, rfl⟩ := h
      intro it hit
      rcases List.mem_cons.mp hit with rfl | hmem
      · exact List.mem_cons_self _ _
      · exact List.mem_cons_of_mem _ (ih ys hys it hmem)

theorem removeItem_invariant (o : Order) (itemId : Nat) (now : Nat)
    (h : totalInvariant o) : totalInvariant (o.removeItem itemId now).1 := by
  obtain ⟨h1, h2⟩ := h
  cases hrem : removeFirstItem o.items itemId with
  | none =>
    have : (o.removeItem itemId now).1 = o := by
      simp [Order.removeItem, hrem]
    rw [this]
    exact ⟨h1, h2⟩
  | some items1 =>
    have hsub := removeFirstItem_subset o.items itemId items1 hrem
    have hall : ∀ it ∈ items1, it.total = it.price * (it.quantity : ℚ) :=
      fun it hit => h2 it (hsub it hit)
    have : (o.removeItem itemId now).1
        = { ({ o with items := items1 } : Order).calculateTotal with updatedAt := now } := by
      simp [Order.removeItem, hrem]
    rw [this]
    exact updatedAt_invariant _ now (calcTotal_invariant ({ o with items := items1 }) hall)

theorem applyItemOp_invariant (o : Order) (op : ItemOp) (h : totalInvariant o) :
    totalInvariant (applyItemOp o op) := by
  cases op with
  | add itemId productId name price quantity now =>
    exact addItem_invariant o itemId productId name price quantity now h
  | remove itemId now => exact removeItem_invariant o itemId now h

theorem applyItemOps_invariant (o : Order) (ops : List ItemOp) (h : totalInvariant o) :
    totalInvariant (applyItemOps o ops) := by
  induction ops generalizing o with
  | nil => exact h
  | cons op rest ih => exact ih (applyItemOp o op) (applyItemOp_invariant o op h)

/-! ## Claim theorems -/

/-- C1: for every order and target status, `Order.UpdateStatus` succeeds
exactly when the (current, target) pair is in the section 4.1 table; on
success the status becomes the target and the update timestamp is refreshed;
on failure the `InvalidStatusTransition` error carries the (from, to) pair
and the order is unchanged. -/
theorem updateStatus_matches_spec_table (o : Order) (s : OrderStatus) (now : Nat) :
    o.updateStatus s now =
      if (o.status, s) ∈ specAllowedPairs then
        ({ o with status := s, updatedAt := now }, none)
      else
        (o, some (.invalidStatusTransition o.status s)) := by
  rcases o with ⟨oid, cid, em, st, ta, cur, its, ca, ua, sa, ba, md⟩
  cases st <;> cases s <;> rfl

/-- C2: starting from any `NewOrder` result, after any finite sequence of
`AddItem`/`RemoveItem` calls the order total equals the exact sum of the
items' price-times-quantity and every stored line total equals its price
times quantity; in particular the claim's concrete example — adding
(10.99, 2) then (5.00, 1) gives 26.98, and removing the first item leaves
5.00 — computes as stated. -/
theorem addRemove_total_invariant :
    (∀ (g customerId : Nat) (email : String) (now : Nat) (ops : List ItemOp),
        totalInvariant (applyItemOps (newOrder g customerId email now).1 ops))
    ∧ (applyItemOps sampleOrder
        [.add 2 3 "A" (1099 / 100) 2 0, .add 4 5 "B" 5 1 0]).totalAmount = 2698 / 100
    ∧ (applyItemOps sampleOrder
        [.add 2 3 "A" (1099 / 100) 2 0, .add 4 5 "B" 5 1 0, .remove 2 0]).totalAmount = 5 := by
  refine ⟨?_, by with_unfolding_all decide, by with_unfolding_all decide⟩
  intro g customerId email now ops
  exact applyItemOps_invariant _ ops (newOrder_invariant g customerId email now)

/-- C3 counterexample: `AddItem` does not reject a non-positive price — on a
fresh order, adding an item with price -1 and quantity 1 appends a line item
and changes the total, where the claim requires the order to be unchanged. -/
theorem addItem_accepts_nonpositive_price :
    (sampleOrder.addItem 2 3 "Widget" (-1) 1 5).items ≠ sampleOrder.items
    ∧ (sampleOrder.addItem 2 3 "Widget" (-1) 1 5).totalAmount ≠ sampleOrder.totalAmount := by
  constructor <;> with_unfolding_all decide

/-- C3 amended: `AddItem` performs no price/quantity validation — for every
order and any price and quantity (non-positive included) it appends the line
item with total price-times-quantity, and when the total invariant held
before the call the order total changes by exactly price-times-quantity. -/
theorem addItem_appends_unconditionally (o : Order) (itemId productId : Nat)
    (name : String) (price : ℚ) (quantity : Int) (now : Nat)
    (h : totalInvariant o) :
    (o.addItem itemId productId name price quantity now).items
      = o.items ++ [{ id := itemId, orderId := o.id, productId := productId, name := name
                      price := price, quantity := quantity
                      total := price * (quantity : ℚ) }]
    ∧ (o.addItem itemId productId name price quantity now).totalAmount
      = o.totalAmount + price * (quantity : ℚ) := by
  obtain ⟨h1, h2⟩ := h
  refine ⟨rfl, ?_⟩
  have hinv := addItem_invariant o itemId productId name price quantity now ⟨h1, h2⟩
  rw [hinv.1, h1]
  have : (o.addItem itemId productId name price quantity now).items
      = o.items ++ [{ id := itemId, orderId := o.id, productId := productId, name := name
                      price := price, quantity := quantity
                      total := price * (quantity : ℚ) }] := rfl
  rw [this]
  simp

/-- C3 amended, witness at a concrete input: the fresh sample order satisfies
the invariant and adding a (-1)-priced item appends it and lowers the total
by 1. -/
theorem addItem_appends_unconditionally_witness :
    totalInvariant sampleOrder
    ∧ ((sampleOrder.addItem 2 3 "Widget" (-1) 1 5).items
        = sampleOrder.items ++ [{ id := 2, orderId := sampleOrder.id, productId := 3
                                  name := "Widget", price := -1, quantity := 1
                                  total := (-1) * ((1 : Int) : ℚ) }]
      ∧ (sampleOrder.addItem 2 3 "Widget" (-1) 1 5).totalAmount
        = sampleOrder.totalAmount + (-1) * ((1 : Int) : ℚ)) :=
  ⟨⟨by with_unfolding_all decide, by with_unfolding_all decide⟩,
    addItem_appends_unconditionally sampleOrder 2 3 "Widget" (-1) 1 5
      ⟨by with_unfolding_all decide, by with_unfolding_all decide⟩⟩

/-- C10: `IsFinal` holds exactly on delivered, cancelled and refunded,
`IsActive` is its negation, and a delivered order is final while the state
machine still allows its transition to refunded — so finality does not mean
the absence of allowed transitions. -/
theorem isFinal_characterization (o : Order) :
    (o.isFinal = true ↔ (o.status = .delivered ∨ o.status = .cancelled ∨ o.status = .refunded))
    ∧ o.isActive = !o.isFinal
    ∧ ({ o with status := .delivered } : Order).isFinal = true
    ∧ ({ o with status := .delivered } : Order).canTransitionTo .refunded = true := by
  rcases o with ⟨oid, cid, em, st, ta, cur, its, ca, ua, sa, ba, md⟩
  cases st <;> simp [Order.isFinal, Order.isActive, Order.canTransitionTo, validTransitions]

/-- C4 counterexample: the repository delete cancels a stored shipped order —
one affected row, status set to cancelled — although the section 4.1 state
machine does not allow the transition shipped to cancelled, so the delete is
not subject to the same state machine. -/
theorem delete_cancels_shipped_despite_state_machine :
    repoDelete { emptyDB with orders := [shippedRow] } 1 5
      = .ok { emptyDB with orders := [{ shippedRow with status := .cancelled, updatedAt := 5 }] }
    ∧ shippedOrder.canTransitionTo .cancelled = false :=
  ⟨by with_unfolding_all rfl, by with_unfolding_all rfl⟩

/-- C4 amended: the repository delete transitions a stored order to cancelled
exactly when its stored status is none of delivered, refunded and cancelled
(a weaker guard than the state machine: shipped is also deletable); when the
guard rejects the row, or no row matches the id, zero rows are affected and
`OrderNotFound` is reported. -/
theorem repoDelete_guarded (db : DB) (row : OrderRow) (oid now : Nat)
    (h : db.orders = [row]) :
    (row.id = oid ∧ deleteGuard row.status = true →
       repoDelete db oid now
         = .ok { db with orders := [{ row with status := .cancelled, updatedAt := now }] })
    ∧ (row.id = oid ∧ deleteGuard row.status = false →
       repoDelete db oid now = .error (.orderNotFound oid))
    ∧ (row.id ≠ oid → repoDelete db oid now = .error (.orderNotFound oid))
    ∧ (deleteGuard row.status = true ↔
        ¬ (row.status = .delivered ∨ row.status = .refunded ∨ row.status = .cancelled)) := by
  refine ⟨?_, ?_, ?_, ?_⟩
  · rintro ⟨rfl, hg⟩
    simp [repoDelete, h, hg]
  · rintro ⟨rfl, hg⟩
    simp [repoDelete, h, hg]
  · intro hne
    simp [repoDelete, h, hne]
  · cases hs : row.status <;> simp [deleteGuard]

/-- C4 amended, witness: a single stored shipped row with id 1 is deleted —
the guard holds, the row comes back cancelled with the fresh timestamp. -/
theorem repoDelete_guarded_witness :
    ({ emptyDB with orders := [shippedRow] } : DB).orders = [shippedRow]
    ∧ (shippedRow.id = 1 ∧ deleteGuard shippedRow.status = true)
    ∧ repoDelete { emptyDB with orders := [shippedRow] } 1 5
        = .ok { ({ emptyDB with orders := [shippedRow] } : DB) with
                orders := [{ shippedRow with status := .cancelled, updatedAt := 5 }] } :=
  ⟨rfl, ⟨rfl, by with_unfolding_all rfl⟩,
    (repoDelete_guarded { emptyDB with orders := [shippedRow] } shippedRow 1 5 rfl).1
      ⟨rfl, by with_unfolding_all rfl⟩⟩

/-- C9: `ListOrders` normalizes and validates before any repository call — a
non-positive limit becomes 20, a limit above 100 becomes 100, a negative
offset becomes 0, the sort field/order come from the fixed allow-lists with
defaults created_at/desc, present amount bounds must be non-negative with
min at most max, and whenever validation fails (in particular when
min_amount exceeds max_amount) the repository is never invoked. -/
theorem listOrders_validation (req : ListOrdersRequest)
    (repoOrders : List Order) (repoCount : Int) :
    (∀ r, validateAndSetDefaults req = .ok r →
        (req.limit ≤ 0 → r.limit = 20)
        ∧ (req.limit > 100 → r.limit = 100)
        ∧ (1 ≤ r.limit ∧ r.limit ≤ 100)
        ∧ (req.offset < 0 → r.offset = 0)
        ∧ 0 ≤ r.offset
        ∧ (req.sortBy = "" → r.sortBy = "created_at")
        ∧ r.sortBy ∈ ["created_at", "updated_at", "total_amount", "status"]
        ∧ (req.sortOrder = "" → r.sortOrder = "desc")
        ∧ (r.sortOrder = "asc" ∨ r.sortOrder = "desc")
        ∧ (∀ mn ∈ req.minAmount, 0 ≤ mn)
        ∧ (∀ mx ∈ req.maxAmount, 0 ≤ mx)
        ∧ (∀ mn ∈ req.minAmount, ∀ mx ∈ req.maxAmount, mn ≤ mx))
    ∧ (∀ mn ∈ req.minAmount, ∀ mx ∈ req.maxAmount, mn > mx →
        ∃ e, validateAndSetDefaults req = .error e
          ∧ (listOrdersExecute req repoOrders repoCount).repoCalled = false)
    ∧ (∀ e, validateAndSetDefaults req = .error e →
        (listOrdersExecute req repoOrders repoCount).repoCalled = false) := by
  have hfix : (normalizeListReq req).minAmount = req.minAmount
      ∧ (normalizeListReq req).maxAmount = req.maxAmount := ⟨rfl, rfl⟩
  have hrepo : ∀ e, validateAndSetDefaults req = .error e →
      (listOrdersExecute req repoOrders repoCount).repoCalled = false := by
    intro e he
    simp [listOrdersExecute, he]
  have hok : ∀ r, validateAndSetDefaults req = .ok r →
      r = normalizeListReq req
      ∧ ["created_at", "updated_at", "total_amount", "status"].contains r.sortBy = true
      ∧ (r.sortOrder = "asc" ∨ r.sortOrder = "desc")
      ∧ negAmount r.minAmount = false
      ∧ negAmount r.maxAmount = false
      ∧ minGtMax r.minAmount r.maxAmount = false := by
    intro r h
    simp only [validateAndSetDefaults] at h
    split_ifs at h with h1 h2 h3 h4 h5 <;> simp at h
    subst h
    refine ⟨rfl, ?_, ?_, ?_, ?_, ?_⟩
    · simpa using h1
    · by_contra hc
      push_neg at hc
      exact h2 ⟨hc.1, hc.2⟩
    · simpa using h3
    · simpa using h4
    · simpa using h5
  refine ⟨?_, ?_, hrepo⟩
  · intro r h
    obtain ⟨hr, hsb, hso, hmin, hmax, hmm⟩ := hok r h
    subst hr
    have hnp : (req.limit ≤ 0 → (normalizeListReq req).limit = 20)
        ∧ (req.limit > 100 → (normalizeListReq req).limit = 100)
        ∧ (1 ≤ (normalizeListReq req).limit ∧ (normalizeListReq req).limit ≤ 100)
        ∧ (req.offset < 0 → (normalizeListReq req).offset = 0)
        ∧ 0 ≤ (normalizeListReq req).offset
        ∧ (req.sortBy = "" → (normalizeListReq req).sortBy = "created_at") := by
      refine ⟨?_, ?_, ⟨?_, ?_⟩, ?_, ?_, ?_⟩
      · intro hl
        simp only [normalizeListReq]
        split_ifs <;> omega
      · intro hl
        simp only [normalizeListReq]
        split_ifs <;> omega
      · simp only [normalizeListReq]
        split_ifs <;> omega
      · simp only [normalizeListReq]
        split_ifs <;> omega
      · intro ho
        simp only [normalizeListReq]
        split_ifs <;> omega
      · simp only [normalizeListReq]
        split_ifs <;> omega
      · intro hs
        simp [normalizeListReq, hs]
    obtain ⟨p1, p2, p3, p4, p5, p6⟩ := hnp
    have hsodef : req.sortOrder = "" → (normalizeListReq req).sortOrder = "desc" := by
      intro hso0
      simp [normalizeListReq, hso0]
    refine ⟨p1, p2, p3, p4, p5, p6, by simpa using hsb, hsodef, hso, ?_, ?_, ?_⟩
    · intro mn hmn
      rw [Option.mem_def] at hmn
      rw [hfix.1, hmn] at hmin
      simpa [negAmount, not_lt] using hmin
    · intro mx hmx
      rw [Option.mem_def] at hmx
      rw [hfix.2, hmx] at hmax
      simpa [negAmount, not_lt] using hmax
    · intro mn hmn mx hmx
      rw [Option.mem_def] at hmn
      rw [Option.mem_def] at hmx
      rw [hfix.1, hfix.2, hmn, hmx] at hmm
      simpa [minGtMax, not_lt] using hmm
  · intro mn hmn mx hmx hgt
    cases he : validateAndSetDefaults req with
    | error e => exact ⟨e, rfl, hrepo e he⟩
    | ok r =>
      obtain ⟨hr, -, -, -, -, hmm⟩ := hok r he
      subst hr
      rw [Option.mem_def] at hmn
      rw [Option.mem_def] at hmx
      rw [hfix.1, hfix.2, hmn, hmx] at hmm
      simp [minGtMax] at hmm
      exact absurd hgt (by simpa [not_lt] using hmm)

/-- C9 witness: the sample list request has non-positive limit, negative
offset, empty sort fields and min 9 above max 4 — validation fails and the
repository is not called. -/
theorem listOrders_validation_witness :
    (9 : ℚ) ∈ sampleListReq.minAmount
    ∧ (4 : ℚ) ∈ sampleListReq.maxAmount
    ∧ (9 : ℚ) > 4
    ∧ ∃ e, validateAndSetDefaults sampleListReq = .error e
        ∧ (listOrdersExecute sampleListReq [] 0).repoCalled = false :=
  ⟨rfl, rfl, by norm_num,
    (listOrders_validation sampleListReq [] 0).2.1 9 rfl 4 rfl (by norm_num)⟩

/-- C6: on a successful status update, exactly one event is published; its
type is chosen by the target status alone (confirmed, cancelled, shipped,
delivered, refunded map to their named event types, any other target to the
generic order.status_changed), the event is built from the already-updated
order (its status is the target status), and its data mapping carries
old_status — the status before the transition — and change_reason — the
supplied reason. -/
theorem updateStatus_event_mapping (req : UpdateOrderStatusRequest) (order : Order)
    (g now : Nat) (publishOk : Bool)
    (hid : req.orderId ≠ 0) (htr : order.canTransitionTo req.newStatus = true) :
    (updateStatusExecute req (.ok order) true g now publishOk).publishAttempts.length = 1
    ∧ ∀ ev ∈ (updateStatusExecute req (.ok order) true g now publishOk).publishAttempts,
        (req.newStatus = .confirmed → ev.eventType = "order.confirmed")
        ∧ (req.newStatus = .cancelled → ev.eventType = "order.cancelled")
        ∧ (req.newStatus = .shipped → ev.eventType = "order.shipped")
        ∧ (req.newStatus = .delivered → ev.eventType = "order.delivered")
        ∧ (req.newStatus = .refunded → ev.eventType = "order.refunded")
        ∧ ((req.newStatus = .pending ∨ req.newStatus = .processing) →
            ev.eventType = "order.status_changed")
        ∧ ev.status = req.newStatus
        ∧ assocGet ev.data "old_status" = some (.s (statusString order.status))
        ∧ assocGet ev.data "change_reason" = some (.s req.reason) := by
  have hup : order.updateStatus req.newStatus now
      = ({ order with status := req.newStatus, updatedAt := now }, none) := by
    simp [Order.updateStatus, htr]
  unfold updateStatusExecute
  rw [if_neg hid]
  dsimp only
  rw [hup]
  dsimp only
  rw [if_neg (not_not_intro (rfl : (true : Bool) = true))]
  split_ifs with hr <;>
  · refine ⟨rfl, ?_⟩
    intro ev hev
    simp only [List.mem_singleton] at hev
    subst hev
    refine ⟨?_, ?_, ?_, ?_, ?_, ?_, rfl, ?_, ?_⟩
    · intro hs
      simp [hs, Order.toEvent, eventTypeFor]
    · intro hs
      simp [hs, Order.toEvent, eventTypeFor]
    · intro hs
      simp [hs, Order.toEvent, eventTypeFor]
    · intro hs
      simp [hs, Order.toEvent, eventTypeFor]
    · intro hs
      simp [hs, Order.toEvent, eventTypeFor]
    · intro hs
      rcases hs with hs | hs <;> simp [hs, Order.toEvent, eventTypeFor]
    · simp [Order.toEvent, assocSet, assocGet]
    · simp [Order.toEvent, assocSet, assocGet]

/-- C6 witness: confirming a pending order with reason "paid" publishes one
order.confirmed event carrying old_status pending and the reason. -/
theorem updateStatus_event_mapping_witness :
    sampleUpdateReq.orderId ≠ 0
    ∧ sampleOrder.canTransitionTo sampleUpdateReq.newStatus = true
    ∧ ((updateStatusExecute sampleUpdateReq (.ok sampleOrder) true 0 0 true).publishAttempts.length = 1
      ∧ ∀ ev ∈ (updateStatusExecute sampleUpdateReq (.ok sampleOrder) true 0 0 true).publishAttempts,
          (sampleUpdateReq.newStatus = .confirmed → ev.eventType = "order.confirmed")
          ∧ (sampleUpdateReq.newStatus = .cancelled → ev.eventType = "order.cancelled")
          ∧ (sampleUpdateReq.newStatus = .shipped → ev.eventType = "order.shipped")
          ∧ (sampleUpdateReq.newStatus = .delivered → ev.eventType = "order.delivered")
          ∧ (sampleUpdateReq.newStatus = .refunded → ev.eventType = "order.refunded")
          ∧ ((sampleUpdateReq.newStatus = .pending ∨ sampleUpdateReq.newStatus = .processing) →
              ev.eventType = "order.status_changed")
          ∧ ev.status = sampleUpdateReq.newStatus
          ∧ assocGet ev.data "old_status" = some (.s (statusString sampleOrder.status))
          ∧ assocGet ev.data "change_reason" = some (.s sampleUpdateReq.reason)) :=
  ⟨by decide, by decide,
    updateStatus_event_mapping sampleUpdateReq sampleOrder 0 0 true (by decide) (by decide)⟩

/-! ## Helper lemmas: CreateOrder request validation and aggregate build -/

theorem validateReqItemsLoop_none (l : List CreateOrderItemRequest) (i : Nat)
    (h : validateReqItemsLoop l i = none) :
    ∀ r ∈ l, r.productId ≠ 0 ∧ r.name ≠ "" ∧ 0 < r.price ∧ 0 < r.quantity := by
  induction l generalizing i with
  | nil => simp
  | cons x xs ih =>
    simp only [validateReqItemsLoop] at h
    split_ifs at h with h1 h2 h3 h4
    intro r hr
    rcases List.mem_cons.mp hr with rfl | hmem
    · exact ⟨h1, h2, not_le.mp h3, not_le.mp h4⟩
    · exact ih (i + 1) h r hmem

theorem validateRequest_none_facts (req : CreateOrderRequest)
    (h : validateRequest req = none) :
    req.customerId ≠ 0 ∧ req.email ≠ "" ∧ validateEmail req.email = true
    ∧ req.items ≠ []
    ∧ ∀ r ∈ req.items, r.productId ≠ 0 ∧ r.name ≠ "" ∧ 0 < r.price ∧ 0 < r.quantity := by
  simp only [validateRequest] at h
  split_ifs at h with h1 h2 h3 h4
  refine ⟨h1, h2, by simpa using h3, ?_, validateReqItemsLoop_none req.items 0 h⟩
  intro hnil
  exact h4 (by simp [hnil])

theorem genItems_orderId (l : List CreateOrderItemRequest) (g oid : Nat) :
    ∀ it ∈ genItems l g oid, it.orderId = oid := by
  induction l generalizing g with
  | nil => simp [genItems]
  | cons x xs ih =>
    intro it hit
    rcases List.mem_cons.mp hit with rfl | hmem
    · rfl
    · exact ih (g + 1) it hmem

theorem genItems_map_key (l : List CreateOrderItemRequest) (g oid : Nat) :
    (genItems l g oid).map itemKey = l.map reqItemKey := by
  induction l generalizing g with
  | nil => rfl
  | cons x xs ih => simp [genItems, itemKey, reqItemKey, ih]

theorem genItems_length (l : List CreateOrderItemRequest) (g oid : Nat) :
    (genItems l g oid).length = l.length := by
  induction l generalizing g with
  | nil => rfl
  | cons x xs ih => simp [genItems, ih]

theorem genItems_facts (l : List CreateOrderItemRequest) (g oid : Nat)
    (hl : ∀ r ∈ l, r.productId ≠ 0 ∧ r.name ≠ "" ∧ 0 < r.price ∧ 0 < r.quantity) :
    ∀ it ∈ genItems l g oid,
      it.id ≠ 0 ∧ it.productId ≠ 0 ∧ it.name ≠ "" ∧ 0 < it.price ∧ 0 < it.quantity
      ∧ it.total = it.price * (it.quantity : ℚ) := by
  induction l generalizing g with
  | nil => simp [genItems]
  | cons x xs ih =>
    intro it hit
    rcases List.mem_cons.mp hit with rfl | hmem
    · obtain ⟨a, b, c, d⟩ := hl x (List.mem_cons_self x xs)
      exact ⟨Nat.succ_ne_zero g, a, b, c, d, rfl⟩
    · exact ih (g + 1) (fun r hr => hl r (List.mem_cons_of_mem x hr)) it hmem

theorem totalInvariant_of_eq (o o' : Order) (hi : o'.items = o.items)
    (ht : o'.totalAmount = o.totalAmount) (h : totalInvariant o) : totalInvariant o' := by
  unfold totalInvariant at h ⊢
  rw [hi, ht]
  exact h

theorem addItemsFromReq_spec (l : List CreateOrderItemRequest) (o : Order) (g now : Nat) :
    (addItemsFromReq o l g now).1.id = o.id
    ∧ (addItemsFromReq o l g now).1.customerId = o.customerId
    ∧ (addItemsFromReq o l g now).1.email = o.email
    ∧ (addItemsFromReq o l g now).1.status = o.status
    ∧ (addItemsFromReq o l g now).1.currency = o.currency
    ∧ (addItemsFromReq o l g now).1.metadata = o.metadata
    ∧ (addItemsFromReq o l g now).1.shippingAddress = o.shippingAddress
    ∧ (addItemsFromReq o l g now).1.billingAddress = o.billingAddress
    ∧ (addItemsFromReq o l g now).1.items = o.items ++ genItems l g o.id := by
  induction l generalizing o g with
  | nil => simp [addItemsFromReq, genItems]
  | cons x xs ih =>
    obtain ⟨i1, i2, i3, i4, i5, i6, i7, i8, i9⟩ :=
      ih (o.addItem (g + 1) x.productId x.name x.price x.quantity now) (g + 1)
    refine ⟨i1, i2, i3, i4, i5, i6, i7, i8, ?_⟩
    show (addItemsFromReq (o.addItem (g + 1) x.productId x.name x.price x.quantity now)
        xs (g + 1) now).1.items = o.items ++ genItems (x :: xs) g o.id
    rw [i9]
    simp [Order.addItem, Order.calculateTotal, genItems, List.append_assoc]

theorem addItemsFromReq_invariant (l : List CreateOrderItemRequest) (o : Order)
    (g now : Nat) (h : totalInvariant o) :
    totalInvariant (addItemsFromReq o l g now).1 := by
  induction l generalizing o g with
  | nil => exact h
  | cons x xs ih =>
    exact ih _ (g + 1) (addItem_invariant o (g + 1) x.productId x.name x.price x.quantity now h)

theorem applyMetadata_fields (m : List (String × MVal)) (o : Order) :
    (applyMetadata o m).id = o.id
    ∧ (applyMetadata o m).customerId = o.customerId
    ∧ (applyMetadata o m).email = o.email
    ∧ (applyMetadata o m).status = o.status
    ∧ (applyMetadata o m).currency = o.currency
    ∧ (applyMetadata o m).items = o.items
    ∧ (applyMetadata o m).totalAmount = o.totalAmount
    ∧ (applyMetadata o m).shippingAddress = o.shippingAddress
    ∧ (applyMetadata o m).billingAddress = o.billingAddress := by
  induction m generalizing o with
  | nil => exact ⟨rfl, rfl, rfl, rfl, rfl, rfl, rfl, rfl, rfl⟩
  | cons kv rest ih =>
    obtain ⟨i1, i2, i3, i4, i5, i6, i7, i8, i9⟩ :=
      ih { o with metadata := assocSet o.metadata kv.1 kv.2 }
    exact ⟨i1, i2, i3, i4, i5, i6, i7, i8, i9⟩

theorem totalInvariant_of_empty (o : Order) (hi : o.items = []) (ht : o.totalAmount = 0) :
    totalInvariant o := by
  unfold totalInvariant
  rw [hi, ht]
  simp

theorem attachAddresses_fields (o : Order) (sa ba : Option CreateAddressRequest) (g now : Nat) :
    (attachAddresses o sa ba g now).1.id = o.id
    ∧ (attachAddresses o sa ba g now).1.customerId = o.customerId
    ∧ (attachAddresses o sa ba g now).1.email = o.email
    ∧ (attachAddresses o sa ba g now).1.status = o.status
    ∧ (attachAddresses o sa ba g now).1.currency = o.currency
    ∧ (attachAddresses o sa ba g now).1.items = o.items
    ∧ (attachAddresses o sa ba g now).1.totalAmount = o.totalAmount
    ∧ (match sa with
       | none => (attachAddresses o sa ba g now).1.shippingAddress = o.shippingAddress
       | some a => ∃ aid, (attachAddresses o sa ba g now).1.shippingAddress
           = some { id := aid, orderId := o.id, addrType := "shipping"
                    street := a.street, city := a.city, state := a.state
                    country := a.country, zipCode := a.zipCode })
    ∧ (match ba with
       | none => (attachAddresses o sa ba g now).1.billingAddress = o.billingAddress
       | some a => ∃ aid, (attachAddresses o sa ba g now).1.billingAddress
           = some { id := aid, orderId := o.id, addrType := "billing"
                    street := a.street, city := a.city, state := a.state
                    country := a.country, zipCode := a.zipCode })
    ∧ (totalInvariant o → totalInvariant (attachAddresses o sa ba g now).1) := by
  rcases sa with - | a <;> rcases ba with - | b <;>
    exact ⟨rfl, rfl, rfl, rfl, rfl, rfl, rfl, by first | rfl | exact ⟨_, rfl⟩,
      by first | rfl | exact ⟨_, rfl⟩, fun h => h⟩

theorem currencyPhaseOf_fields (req : CreateOrderRequest) (g now : Nat) :
    (currencyPhaseOf req g now).id = g + 1
    ∧ (currencyPhaseOf req g now).customerId = req.customerId
    ∧ (currencyPhaseOf req g now).email = req.email
    ∧ (currencyPhaseOf req g now).status = .pending
    ∧ (currencyPhaseOf req g now).currency
        = (if req.currency = "" then "USD" else req.currency)
    ∧ (currencyPhaseOf req g now).items = []
    ∧ (currencyPhaseOf req g now).totalAmount = 0
    ∧ (currencyPhaseOf req g now).shippingAddress = none
    ∧ (currencyPhaseOf req g now).billingAddress = none := by
  by_cases hc : req.currency = "" <;> simp [currencyPhaseOf, newOrder, hc]

theorem metaPhaseOf_fields (req : CreateOrderRequest) (g now : Nat) :
    (metaPhaseOf req g now).id = (currencyPhaseOf req g now).id
    ∧ (metaPhaseOf req g now).customerId = (currencyPhaseOf req g now).customerId
    ∧ (metaPhaseOf req g now).email = (currencyPhaseOf req g now).email
    ∧ (metaPhaseOf req g now).status = (currencyPhaseOf req g now).status
    ∧ (metaPhaseOf req g now).currency = (currencyPhaseOf req g now).currency
    ∧ (metaPhaseOf req g now).items = (currencyPhaseOf req g now).items
    ∧ (metaPhaseOf req g now).totalAmount = (currencyPhaseOf req g now).totalAmount
    ∧ (metaPhaseOf req g now).shippingAddress = (currencyPhaseOf req g now).shippingAddress
    ∧ (metaPhaseOf req g now).billingAddress = (currencyPhaseOf req g now).billingAddress :=
  applyMetadata_fields req.metadata (currencyPhaseOf req g now)

theorem addItemsPhaseOf_fields (req : CreateOrderRequest) (g now : Nat) :
    (addItemsPhaseOf req g now).1.id = (metaPhaseOf req g now).id
    ∧ (addItemsPhaseOf req g now).1.customerId = (metaPhaseOf req g now).customerId
    ∧ (addItemsPhaseOf req g now).1.email = (metaPhaseOf req g now).email
    ∧ (addItemsPhaseOf req g now).1.status = (metaPhaseOf req g now).status
    ∧ (addItemsPhaseOf req g now).1.currency = (metaPhaseOf req g now).currency
    ∧ (addItemsPhaseOf req g now).1.metadata = (metaPhaseOf req g now).metadata
    ∧ (addItemsPhaseOf req g now).1.shippingAddress = (metaPhaseOf req g now).shippingAddress
    ∧ (addItemsPhaseOf req g now).1.billingAddress = (metaPhaseOf req g now).billingAddress
    ∧ (addItemsPhaseOf req g now).1.items
        = (metaPhaseOf req g now).items
            ++ genItems req.items (g + 1) (metaPhaseOf req g now).id :=
  addItemsFromReq_spec req.items (metaPhaseOf req g now) (g + 1) now

theorem buildOrderFromReq_eq_phases (req : CreateOrderRequest) (g now : Nat) :
    buildOrderFromReq req g now
      = attachAddresses (addItemsPhaseOf req g now).1 req.shippingAddress req.billingAddress
          (addItemsPhaseOf req g now).2 now := rfl

theorem buildOrderFromReq_facts (req : CreateOrderRequest) (g now : Nat) :
    (buildOrderFromReq req g now).1.id = g + 1
    ∧ (buildOrderFromReq req g now).1.customerId = req.customerId
    ∧ (buildOrderFromReq req g now).1.email = req.email
    ∧ (buildOrderFromReq req g now).1.status = .pending
    ∧ (buildOrderFromReq req g now).1.currency
        = (if req.currency = "" then "USD" else req.currency)
    ∧ (buildOrderFromReq req g now).1.items = genItems req.items (g + 1) (g + 1)
    ∧ totalInvariant (buildOrderFromReq req g now).1
    ∧ (match req.shippingAddress with
       | none => (buildOrderFromReq req g now).1.shippingAddress = none
       | some a => ∃ aid, (buildOrderFromReq req g now).1.shippingAddress
           = some { id := aid, orderId := g + 1, addrType := "shipping"
                    street := a.street, city := a.city, state := a.state
                    country := a.country, zipCode := a.zipCode })
    ∧ (match req.billingAddress with
       | none => (buildOrderFromReq req g now).1.billingAddress = none
       | some a => ∃ aid, (buildOrderFromReq req g now).1.billingAddress
           = some { id := aid, orderId := g + 1, addrType := "billing"
                    street := a.street, city := a.city, state := a.state
                    country := a.country, zipCode := a.zipCode }) := by
  obtain ⟨t1, t2, t3, t4, t5, t6, t7, t8, t9, tinv⟩ :=
    attachAddresses_fields (addItemsPhaseOf req g now).1 req.shippingAddress
      req.billingAddress (addItemsPhaseOf req g now).2 now
  obtain ⟨a1, a2, a3, a4, a5, a6, a7, a8, a9⟩ := addItemsPhaseOf_fields req g now
  obtain ⟨m1, m2, m3, m4, m5, m6, m7, m8, m9⟩ := metaPhaseOf_fields req g now
  obtain ⟨c1, c2, c3, c4, c5, c6, c7, c8, c9⟩ := currencyPhaseOf_fields req g now
  have hb : buildOrderFromReq req g now
      = attachAddresses (addItemsPhaseOf req g now).1 req.shippingAddress req.billingAddress
          (addItemsPhaseOf req g now).2 now := buildOrderFromReq_eq_phases req g now
  have hid : (addItemsPhaseOf req g now).1.id = g + 1 := (a1.trans m1).trans c1
  have hinv : totalInvariant (addItemsPhaseOf req g now).1 := by
    refine addItemsFromReq_invariant req.items _ (g + 1) now ?_
    refine totalInvariant_of_eq _ _ m6 m7 ?_
    exact totalInvariant_of_empty _ c6 c7
  refine ⟨?_, ?_, ?_, ?_, ?_, ?_, ?_, ?_, ?_⟩
  · rw [hb, t1]
    exact hid
  · rw [hb, t2]
    exact (a2.trans m2).trans c2
  · rw [hb, t3]
    exact (a3.trans m3).trans c3
  · rw [hb, t4]
    exact (a4.trans m4).trans c4
  · rw [hb, t5]
    exact (a5.trans m5).trans c5
  · rw [hb, t6, a9, m6, c6, m1, c1]
    simp
  · rw [hb]
    exact tinv hinv
  · rcases hsa : req.shippingAddress with - | a
    · simp only [hsa] at t8 ⊢
      rw [hb, hsa, t8, a7, m8, c8]
    · simp only [hsa] at t8 ⊢
      obtain ⟨aid, ht⟩ := t8
      refine ⟨aid, ?_⟩
      rw [hb, hsa, ht, hid]
  · rcases hba : req.billingAddress with - | a
    · simp only [hba] at t9 ⊢
      rw [hb, hba, t9, a8, m9, c9]
    · simp only [hba] at t9 ⊢
      obtain ⟨aid, ht⟩ := t9
      refine ⟨aid, ?_⟩
      rw [hb, hba, ht, hid]

theorem itemValidate_none (it : OrderItem) (h1 : it.id ≠ 0) (h2 : it.productId ≠ 0)
    (h3 : it.name ≠ "") (h4 : 0 < it.price) (h5 : 0 < it.quantity)
    (h6 : it.total = it.price * (it.quantity : ℚ)) : it.validate = none := by
  unfold OrderItem.validate
  rw [if_neg h1, if_neg h2, if_neg h3, if_neg (not_le.mpr h4), if_neg (not_le.mpr h5),
    if_neg (fun hne => hne h6)]

theorem validateItemsLoop_none_of (l : List OrderItem)
    (h : ∀ it ∈ l, it.validate = none) : ∀ i, validateItemsLoop l i = none := by
  induction l with
  | nil => intro i; rfl
  | cons x xs ih =>
    intro i
    have hx := h x (List.mem_cons_self x xs)
    simp only [validateItemsLoop, hx]
    exact ih (fun it hit => h it (List.mem_cons_of_mem x hit)) (i + 1)

theorem buildOrder_validate_none (req : CreateOrderRequest) (g now : Nat)
    (h : validateRequest req = none) : (buildOrderFromReq req g now).1.validate = none := by
  obtain ⟨hc, he, -, hne, hil⟩ := validateRequest_none_facts req h
  obtain ⟨f1, f2, f3, -, -, f6, finv, -, -⟩ := buildOrderFromReq_facts req g now
  have hgen := genItems_facts req.items (g + 1) (g + 1) hil
  have hitems : ∀ it ∈ (buildOrderFromReq req g now).1.items, it.validate = none := by
    intro it hit
    rw [f6] at hit
    obtain ⟨x1, x2, x3, x4, x5, x6⟩ := hgen it hit
    exact itemValidate_none it x1 x2 x3 x4 x5 x6
  have hlen : (buildOrderFromReq req g now).1.items.length = req.items.length := by
    rw [f6, genItems_length]
  have hpos : 0 < (buildOrderFromReq req g now).1.totalAmount := by
    rw [finv.1]
    refine List.sum_pos _ ?_ ?_
    · intro q hq
      rw [List.mem_map] at hq
      obtain ⟨it, hit, rfl⟩ := hq
      rw [f6] at hit
      obtain ⟨-, -, -, x4, x5, -⟩ := hgen it hit
      have : (0 : ℚ) < (it.quantity : ℚ) := by exact_mod_cast x5
      exact mul_pos x4 this
    · intro hmap
      rw [f6] at hmap
      have : genItems req.items (g + 1) (g + 1) = [] := by
        exact List.map_eq_nil_iff.mp hmap
      have := congrArg List.length this
      rw [genItems_length] at this
      exact hne (List.length_eq_zero.mp this)
  unfold Order.validate
  rw [f1, f2, f3]
  rw [if_neg (Nat.succ_ne_zero g), if_neg hc, if_neg he, if_neg ?hlen, if_neg ?hpos]
  case hlen =>
    rw [hlen]
    intro h0
    exact hne (List.length_eq_zero.mp h0)
  case hpos => exact not_le.mpr hpos
  exact validateItemsLoop_none_of _ hitems 0

/-- C5: for every request passing validation, a repository-create failure
aborts CreateOrder with a persistence error and no event is built or
published; a repository-create success returns the built order, publishes
exactly one order.created event, and the publish outcome does not change the
result of the use case. -/
theorem createOrder_dualWrite (req : CreateOrderRequest) (g now : Nat)
    (publishOk publishOk2 : Bool) (h : validateRequest req = none) :
    ((createOrderExecute req g now false publishOk).outcome
        = .error (.persistence "failed to save order")
      ∧ (createOrderExecute req g now false publishOk).createAttempted = true
      ∧ (createOrderExecute req g now false publishOk).publishAttempts = [])
    ∧ ((createOrderExecute req g now true publishOk).outcome
          = .ok (buildOrderFromReq req g now).1
      ∧ (∃ ev, (createOrderExecute req g now true publishOk).publishAttempts = [ev]
          ∧ ev.eventType = "order.created")
      ∧ createOrderExecute req g now true publishOk
          = createOrderExecute req g now true publishOk2) := by
  have hval := buildOrder_validate_none req g now h
  rcases hbuild : buildOrderFromReq req g now with ⟨order, g1⟩
  rw [hbuild] at hval
  have hval1 : order.validate = none := hval
  constructor
  · unfold createOrderExecute
    rw [h]
    dsimp only
    rw [hbuild]
    dsimp only
    rw [hval1]
    exact ⟨rfl, rfl, rfl⟩
  · unfold createOrderExecute
    rw [h]
    dsimp only
    rw [hbuild]
    dsimp only
    rw [hval1]
    dsimp only
    rw [if_neg (not_not_intro (rfl : (true : Bool) = true))]
    exact ⟨rfl, ⟨_, rfl, rfl⟩, rfl⟩

/-- C5 witness: the sample creation request validates, and both halves of the
dual-write policy hold for it. -/
theorem createOrder_dualWrite_witness :
    validateRequest sampleCreateReq = none
    ∧ (((createOrderExecute sampleCreateReq 0 0 false true).outcome
          = .error (.persistence "failed to save order")
        ∧ (createOrderExecute sampleCreateReq 0 0 false true).createAttempted = true
        ∧ (createOrderExecute sampleCreateReq 0 0 false true).publishAttempts = [])
      ∧ ((createOrderExecute sampleCreateReq 0 0 true true).outcome
            = .ok (buildOrderFromReq sampleCreateReq 0 0).1
        ∧ (∃ ev, (createOrderExecute sampleCreateReq 0 0 true true).publishAttempts = [ev]
            ∧ ev.eventType = "order.created")
        ∧ createOrderExecute sampleCreateReq 0 0 true true
            = createOrderExecute sampleCreateReq 0 0 true false)) :=
  ⟨by with_unfolding_all decide,
    createOrder_dualWrite sampleCreateReq 0 0 true false (by with_unfolding_all decide)⟩

/-! ## Helper lemmas: splitting on the at-sign -/

theorem goSplit_count_zero (l : List Char) (c : Char) (h : l.count c = 0) :
    goSplit l c = [l] := by
  induction l with
  | nil => rfl
  | cons x xs ih =>
    rw [List.count_cons] at h
    by_cases hx : x = c
    · simp [hx] at h
    · have hxs : xs.count c = 0 := by simpa [hx] using h
      simp [goSplit, hx, ih hxs]

theorem goSplit_count_one (l : List Char) (c : Char) (h : l.count c = 1) :
    goSplit l c
      = [l.takeWhile (fun x => x ≠ c), (l.dropWhile (fun x => x ≠ c)).tail] := by
  induction l with
  | nil => simp at h
  | cons x xs ih =>
    by_cases hx : x = c
    · subst hx
      rw [List.count_cons] at h
      have hxs : xs.count x = 0 := by simpa using h
      simp [goSplit, goSplit_count_zero xs x hxs]
    · have hxs : xs.count c = 1 := by
        rw [List.count_cons] at h
        simpa [hx] using h
      simp only [goSplit, if_neg hx, ih hxs]
      simp [hx]

theorem goSplit_length (l : List Char) (c : Char) :
    (goSplit l c).length = l.count c + 1 := by
  induction l with
  | nil => rfl
  | cons x xs ih =>
    by_cases hx : x = c
    · subst hx
      simp [goSplit, List.count_cons, ih]
    · cases hgs : goSplit xs c with
      | nil =>
        rw [hgs] at ih
        simp at ih
      | cons hh tt =>
        rw [hgs] at ih
        simp only [goSplit, if_neg hx, hgs]
        simp only [List.length_cons] at ih ⊢
        rw [ih, List.count_cons]
        simp [hx]

/-- C8 counterexample: the email "@a.b" satisfies the spec's rule — it
contains "@" and its domain part "a.b" has 3 characters and contains "." —
yet `validateEmail` rejects it (the code additionally requires a total
length of at least 5), and CreateOrder fails it with a validation error. -/
theorem emailSpecRule_insufficient :
    emailSpecValid "@a.b" = true
    ∧ validateEmail "@a.b" = false
    ∧ (createOrderExecute badEmailReq 0 0 true true).outcome
        = .error (.validation "invalid email format") := by
  refine ⟨by decide, by decide, ?_⟩
  with_unfolding_all rfl

theorem validateRequest_some_of_badEmail (req : CreateOrderRequest)
    (hb : validateEmail req.email = false) :
    ∃ m, validateRequest req = some (.validation m) := by
  by_cases h1 : req.customerId = 0
  · exact ⟨"customer_id is required", by simp [validateRequest, h1]⟩
  · by_cases h2 : req.email = ""
    · exact ⟨"email is required", by simp [validateRequest, h1, h2]⟩
    · exact ⟨"invalid email format", by simp [validateRequest, h1, h2, hb]⟩

/-- C8 amended: `validateEmail` accepts exactly the emails of length at least
5 containing exactly one "@" whose part after the "@" has at least 3
characters and contains "." (the spec's rule alone — "@" present, domain of
3+ characters with a dot — is not sufficient); and for every request whose
email the rule rejects, CreateOrder returns a validation error before any
persistence or event publishing is attempted. -/
theorem validateEmail_characterization :
    (∀ email : String, validateEmail email = true ↔
      (5 ≤ email.length ∧ email.data.count '@' = 1
        ∧ 3 ≤ ((email.data.dropWhile (fun ch => ch ≠ '@')).tail).length
        ∧ ((email.data.dropWhile (fun ch => ch ≠ '@')).tail).contains '.' = true))
    ∧ (∀ (req : CreateOrderRequest) (g now : Nat) (createOk publishOk : Bool),
        validateEmail req.email = false →
          (∃ m, (createOrderExecute req g now createOk publishOk).outcome
              = .error (.validation m))
          ∧ (createOrderExecute req g now createOk publishOk).createAttempted = false
          ∧ (createOrderExecute req g now createOk publishOk).publishAttempts = []) := by
  constructor
  · intro email
    constructor
    · intro h
      simp only [validateEmail] at h
      split_ifs at h with h1 h2
      simp only [Bool.and_eq_true, beq_iff_eq, decide_eq_true_eq] at h
      obtain ⟨⟨hlen2, hdom⟩, hdot⟩ := h
      have hcount : email.data.count '@' = 1 := by
        have := goSplit_length email.data '@'
        rw [hlen2] at this
        omega
      have hparts := goSplit_count_one email.data '@' hcount
      rw [hparts] at hdom hdot
      simp only [List.getD] at hdom hdot
      refine ⟨by omega, hcount, ?_, ?_⟩
      · simpa using hdom
      · simpa using hdot
    · rintro ⟨hlen, hcount, hdom, hdot⟩
      have hparts := goSplit_count_one email.data '@' hcount
      have hmem : '@' ∈ email.data := by
        rw [← List.count_pos_iff]
        omega
      have hcontains : email.data.contains '@' = true := by simp [hmem]
      simp only [validateEmail]
      rw [if_neg (by omega : ¬ email.length < 5), if_neg (not_not_intro hcontains)]
      rw [hparts]
      simp only [List.getD, List.length_cons, List.length_singleton]
      simp only [Bool.and_eq_true, beq_iff_eq, decide_eq_true_eq]
      refine ⟨⟨rfl, ?_⟩, ?_⟩
      · simpa using hdom
      · simpa using hdot
  · intro req g now createOk publishOk hb
    obtain ⟨m, hm⟩ := validateRequest_some_of_badEmail req hb
    unfold createOrderExecute
    rw [hm]
    exact ⟨⟨m, rfl⟩, rfl, rfl⟩

/-- C8 amended, witness: the bad-email request is rejected before any
persistence attempt. -/
theorem validateEmail_characterization_witness :
    validateEmail badEmailReq.email = false
    ∧ ((∃ m, (createOrderExecute badEmailReq 0 0 true true).outcome
          = .error (.validation m))
      ∧ (createOrderExecute badEmailReq 0 0 true true).createAttempted = false
      ∧ (createOrderExecute badEmailReq 0 0 true true).publishAttempts = []) :=
  ⟨by decide, validateEmail_characterization.2 badEmailReq 0 0 true true (by decide)⟩

/-! ## Helper lemmas: repository round trip -/

theorem insertByName_perm (x : ItemRow) (l : List ItemRow) :
    (insertByName x l).Perm (x :: l) := by
  induction l with
  | nil => exact List.Perm.refl _
  | cons y ys ih =>
    unfold insertByName
    by_cases h : nameLe y x
    · rw [if_pos h]
      exact (ih.cons y).trans (List.Perm.swap x y ys)
    · rw [if_neg h]

theorem sortByName_perm (l : List ItemRow) : (sortByName l).Perm l := by
  induction l with
  | nil => exact List.Perm.refl _
  | cons x xs ih => exact (insertByName_perm x (sortByName xs)).trans (ih.cons x)

theorem rowToItem_itemToRow (it : OrderItem) : rowToItem (itemToRow it) = it := rfl

theorem rowToAddress_addressToRow (a : Address) : rowToAddress (addressToRow a) = a := rfl

theorem createOrderExecute_ok_outcome (req : CreateOrderRequest) (g now : Nat) (p : Bool)
    (h : validateRequest req = none) :
    (createOrderExecute req g now true p).outcome = .ok (buildOrderFromReq req g now).1 := by
  have hval := buildOrder_validate_none req g now h
  rcases hbuild : buildOrderFromReq req g now with ⟨order, g1⟩
  rw [hbuild] at hval
  have hval1 : order.validate = none := hval
  unfold createOrderExecute
  rw [h]
  dsimp only
  rw [hbuild]
  dsimp only
  rw [hval1]
  dsimp only
  rw [if_neg (not_not_intro (rfl : (true : Bool) = true))]

theorem assignAddresses_shape (l : List Address) (o : Order) :
    ∃ s b, assignAddresses o l = { o with shippingAddress := s, billingAddress := b } := by
  induction l generalizing o with
  | nil => exact ⟨o.shippingAddress, o.billingAddress, rfl⟩
  | cons a rest ih =>
    by_cases h1 : a.addrType = "shipping"
    · obtain ⟨s, b, hsb⟩ := ih { o with shippingAddress := some a }
      refine ⟨s, b, ?_⟩
      simp only [assignAddresses, if_pos h1]
      rw [hsb]
    · by_cases h2 : a.addrType = "billing"
      · obtain ⟨s, b, hsb⟩ := ih { o with billingAddress := some a }
        refine ⟨s, b, ?_⟩
        simp only [assignAddresses, if_neg h1, if_pos h2]
        rw [hsb]
      · obtain ⟨s, b, hsb⟩ := ih o
        refine ⟨s, b, ?_⟩
        simp only [assignAddresses, if_neg h1, if_neg h2]
        rw [hsb]

theorem repoGetByID_single (o : Order) :
    repoGetByID (repoCreate emptyDB o) o.id
      = .ok (assignAddresses (getBaseOrder o) (getAddrList o)) := by
  have hfind : (repoCreate emptyDB o).orders.find? (fun r => r.id = o.id)
      = some { id := o.id, customerId := o.customerId, email := o.email, status := o.status
               totalAmount := o.totalAmount, currency := o.currency
               createdAt := o.createdAt, updatedAt := o.updatedAt } := by
    simp [repoCreate, emptyDB, List.find?]
  unfold repoGetByID
  rw [hfind]
  rfl

theorem repo_roundtrip (o : Order)
    (hitems : ∀ it ∈ o.items, it.orderId = o.id)
    (hship : ∀ a, o.shippingAddress = some a → a.orderId = o.id ∧ a.addrType = "shipping")
    (hbill : ∀ a, o.billingAddress = some a → a.orderId = o.id ∧ a.addrType = "billing") :
    ∃ o', repoGetByID (repoCreate emptyDB o) o.id = .ok o'
      ∧ o'.id = o.id ∧ o'.customerId = o.customerId ∧ o'.email = o.email
      ∧ o'.status = o.status ∧ o'.currency = o.currency
      ∧ (o'.items.map itemKey).Perm (o.items.map itemKey)
      ∧ o'.shippingAddress.map addrProj = o.shippingAddress.map addrProj
      ∧ o'.billingAddress.map addrProj = o.billingAddress.map addrProj
      ∧ o'.metadata = [] := by
  have hfilterI : (o.items.map itemToRow).filter (fun ir => ir.orderId = o.id)
      = o.items.map itemToRow := by
    rw [List.filter_eq_self]
    intro r hr
    rw [List.mem_map] at hr
    obtain ⟨it, hit, rfl⟩ := hr
    simp [itemToRow, hitems it hit]
  have hpermKey : ((getBaseOrder o).items.map itemKey).Perm (o.items.map itemKey) := by
    unfold getBaseOrder
    rw [hfilterI]
    simp only [List.map_map]
    have h1 := (sortByName_perm (o.items.map itemToRow)).map (itemKey ∘ rowToItem)
    have h2 : (o.items.map itemToRow).map (itemKey ∘ rowToItem) = o.items.map itemKey := by
      rw [List.map_map]
      exact List.map_congr_left (fun it _ => rfl)
    rw [h2] at h1
    exact h1
  have haddr : getAddrList o
      = (match o.shippingAddress with | none => [] | some a => [a])
        ++ (match o.billingAddress with | none => [] | some a => [a]) := by
    unfold getAddrList
    rcases hs : o.shippingAddress with - | a <;> rcases hb : o.billingAddress with - | b <;>
      simp only [hs, hb]
    · rfl
    · obtain ⟨hbid, -⟩ := hbill b hb
      simp [addressToRow, rowToAddress, hbid]
      rw [← hbid]
    · obtain ⟨hsid, -⟩ := hship a hs
      simp [addressToRow, rowToAddress, hsid]
      rw [← hsid]
    · obtain ⟨hsid, -⟩ := hship a hs
      obtain ⟨hbid, -⟩ := hbill b hb
      simp [addressToRow, rowToAddress, hsid, hbid]
      refine ⟨?_, ?_⟩
      · rw [← hsid]
      · rw [← hbid]
  have hshipRes : (assignAddresses (getBaseOrder o) (getAddrList o)).shippingAddress
      = o.shippingAddress ∧ (assignAddresses (getBaseOrder o) (getAddrList o)).billingAddress
      = o.billingAddress := by
    rw [haddr]
    rcases hs : o.shippingAddress with - | a <;> rcases hb : o.billingAddress with - | b <;>
      simp only [hs, hb]
    · exact ⟨rfl, rfl⟩
    · obtain ⟨-, hbty⟩ := hbill b hb
      constructor <;> simp [assignAddresses, hbty, getBaseOrder]
    · obtain ⟨-, hsty⟩ := hship a hs
      constructor <;> simp [assignAddresses, hsty, getBaseOrder]
    · obtain ⟨-, hsty⟩ := hship a hs
      obtain ⟨-, hbty⟩ := hbill b hb
      constructor <;> simp [assignAddresses, hsty, hbty, getBaseOrder]
  rw [repoGetByID_single o]
  refine ⟨_, rfl, ?_⟩
  obtain ⟨s, b, hsb⟩ := assignAddresses_shape (getAddrList o) (getBaseOrder o)
  rw [hsb] at hshipRes ⊢
  refine ⟨rfl, rfl, rfl, rfl, rfl, ?_, ?_, ?_, rfl⟩
  · exact hpermKey
  · rw [hshipRes.1]
  · rw [hshipRes.2]

/-- C7 counterexample: CreateOrder followed by GetOrder does not return the
metadata — the sample request carries metadata source=web, but the order
read back has empty metadata (`GetByID` initializes it to an empty map and
no metadata is ever persisted), so the fields do not all match the input. -/
theorem createThenGet_drops_metadata :
    (∃ o, createThenGet sampleCreateReq 0 0 = .ok o ∧ o.metadata = [])
    ∧ sampleCreateReq.metadata = [("source", MVal.s "web")] := by
  refine ⟨?_, rfl⟩
  have h : validateRequest sampleCreateReq = none := by with_unfolding_all decide
  obtain ⟨s, b, hsb⟩ := assignAddresses_shape
    (getAddrList (buildOrderFromReq sampleCreateReq 0 0).1)
    (getBaseOrder (buildOrderFromReq sampleCreateReq 0 0).1)
  refine ⟨assignAddresses (getBaseOrder (buildOrderFromReq sampleCreateReq 0 0).1)
      (getAddrList (buildOrderFromReq sampleCreateReq 0 0).1), ?_, ?_⟩
  · unfold createThenGet
    rw [createOrderExecute_ok_outcome sampleCreateReq 0 0 true h]
    exact repoGetByID_single _
  · rw [hsb]
    rfl

/-- C7 amended: for every valid CreateOrder input, CreateOrder then GetOrder
on the returned id yields an order with a generated non-zero id, status
pending, the input's customer id, email and currency (defaulted to USD), the
input's line items up to the name-ordering of the read (a permutation on
(product, name, price, quantity)), and the input's addresses; the metadata,
however, comes back empty rather than matching the input. -/
theorem createThenGet_roundtrip (req : CreateOrderRequest) (g now : Nat)
    (h : validateRequest req = none) :
    ∃ o, createThenGet req g now = .ok o
      ∧ o.id = g + 1 ∧ o.id ≠ 0
      ∧ o.customerId = req.customerId
      ∧ o.email = req.email
      ∧ o.currency = (if req.currency = "" then "USD" else req.currency)
      ∧ o.status = .pending
      ∧ (o.items.map itemKey).Perm (req.items.map reqItemKey)
      ∧ o.shippingAddress.map addrProj = req.shippingAddress.map reqAddrProj
      ∧ o.billingAddress.map addrProj = req.billingAddress.map reqAddrProj
      ∧ o.metadata = [] := by
  obtain ⟨f1, f2, f3, f4, f5, f6, finv, f8, f9⟩ := buildOrderFromReq_facts req g now
  have hout := createOrderExecute_ok_outcome req g now true h
  have hitemsO : ∀ it ∈ (buildOrderFromReq req g now).1.items,
      it.orderId = (buildOrderFromReq req g now).1.id := by
    intro it hit
    rw [f6] at hit
    rw [f1]
    exact genItems_orderId req.items (g + 1) (g + 1) it hit
  have hshipO : ∀ a, (buildOrderFromReq req g now).1.shippingAddress = some a →
      a.orderId = (buildOrderFromReq req g now).1.id ∧ a.addrType = "shipping" := by
    intro a ha
    rcases hsa : req.shippingAddress with - | ra
    · rw [hsa] at f8
      rw [f8] at ha
      cases ha
    · rw [hsa] at f8
      obtain ⟨aid, hsome⟩ := f8
      rw [hsome] at ha
      injection ha with ha1
      subst ha1
      exact ⟨by rw [f1], rfl⟩
  have hbillO : ∀ a, (buildOrderFromReq req g now).1.billingAddress = some a →
      a.orderId = (buildOrderFromReq req g now).1.id ∧ a.addrType = "billing" := by
    intro a ha
    rcases hba : req.billingAddress with - | ra
    · rw [hba] at f9
      rw [f9] at ha
      cases ha
    · rw [hba] at f9
      obtain ⟨aid, hsome⟩ := f9
      rw [hsome] at ha
      injection ha with ha1
      subst ha1
      exact ⟨by rw [f1], rfl⟩
  obtain ⟨o', hget, r1, r2, r3, r4, r5, rperm, rship, rbill, rmeta⟩ :=
    repo_roundtrip (buildOrderFromReq req g now).1 hitemsO hshipO hbillO
  refine ⟨o', ?_, ?_, ?_, ?_, ?_, ?_, ?_, ?_, ?_, ?_, rmeta⟩
  · unfold createThenGet
    rw [hout]
    exact hget
  · rw [r1, f1]
  · rw [r1, f1]
    exact Nat.succ_ne_zero g
  · rw [r2, f2]
  · rw [r3, f3]
  · rw [r5, f5]
  · rw [r4, f4]
  · have hkeys : (buildOrderFromReq req g now).1.items.map itemKey
        = req.items.map reqItemKey := by
      rw [f6, genItems_map_key]
    rw [← hkeys]
    exact rperm
  · rw [rship]
    rcases hsa : req.shippingAddress with - | ra
    · rw [hsa] at f8
      rw [f8]
      simp [hsa]
    · rw [hsa] at f8
      obtain ⟨aid, hsome⟩ := f8
      rw [hsome]
      simp [hsa, addrProj, reqAddrProj]
  · rw [rbill]
    rcases hba : req.billingAddress with - | ra
    · rw [hba] at f9
      rw [f9]
      simp [hba]
    · rw [hba] at f9
      obtain ⟨aid, hsome⟩ := f9
      rw [hsome]
      simp [hba, addrProj, reqAddrProj]

/-- C7 amended, witness: the sample request round-trips as described. -/
theorem createThenGet_roundtrip_witness :
    validateRequest sampleCreateReq = none
    ∧ ∃ o, createThenGet sampleCreateReq 0 0 = .ok o
      ∧ o.id = 0 + 1 ∧ o.id ≠ 0
      ∧ o.customerId = sampleCreateReq.customerId
      ∧ o.email = sampleCreateReq.email
      ∧ o.currency = (if sampleCreateReq.currency = "" then "USD" else sampleCreateReq.currency)
      ∧ o.status = .pending
      ∧ (o.items.map itemKey).Perm (sampleCreateReq.items.map reqItemKey)
      ∧ o.shippingAddress.map addrProj = sampleCreateReq.shippingAddress.map reqAddrProj
      ∧ o.billingAddress.map addrProj = sampleCreateReq.billingAddress.map reqAddrProj
      ∧ o.metadata = [] :=
  ⟨by with_unfolding_all decide,
    createThenGet_roundtrip sampleCreateReq 0 0 (by with_unfolding_all decide)⟩

end KOS
